import Mathlib

/-!
Shallow embedding of `latex_templates/__init__.py` (repository ggazzi/latex-templates).

Paths are modelled as POSIX-style strings, Python dicts as insertion-ordered
association lists, and the filesystem as a record of boolean predicates plus a
directory listing.  The Jinja2 templating engine and the YAML parser are opaque
collaborators and enter the model as function parameters.
-/

namespace LatexTemplates

/-- Whether one character list occurs contiguously inside another. -/
def hasInfix (needle : List Char) : List Char → Bool
  | [] => needle.isEmpty
  | c :: rest => needle.isPrefixOf (c :: rest) || hasInfix needle rest

/-- Whether the string ends with the given pattern. -/
def strEndsWith (s pat : String) : Bool :=
  pat.data.isSuffixOf s.data

/-- Helper for `strSplit`: accumulate the current piece (reversed). -/
def strSplitAux (sep : Char) : List Char → List Char → List (List Char)
  | [], acc => [acc.reverse]
  | c :: rest, acc =>
    if c = sep then acc.reverse :: strSplitAux sep rest []
    else strSplitAux sep rest (c :: acc)

/-- Model of Python `str.split(sep)` for a one-character separator (the code
only splits on `":"`): splits at every occurrence, keeping empty pieces. -/
def strSplit (s : String) (sep : Char) : List String :=
  (strSplitAux sep s.data []).map String.mk

/-- Model of `pathlib`'s `Path(p) / c`: spurious `.` base collapses away,
a trailing slash is not doubled. -/
def joinPath (p c : String) : String :=
  if p = "" ∨ p = "." ∨ p = "./" then c
  else if strEndsWith p "/" then p ++ c
  else p ++ "/" ++ c

/-- Final path component (`Path.name`). -/
def fileName (s : String) : String :=
  ⟨(s.data.reverse.takeWhile (fun c => c ≠ '/')).reverse⟩

/-- Everything up to and including the last `/` (empty if there is none). -/
def dirPart (s : String) : String :=
  s.dropRight (fileName s).length

/-- Index of the last occurrence of a character in a list, if any. -/
def lastIdxOf (c : Char) : List Char → Option Nat
  | [] => none
  | x :: rest =>
    match lastIdxOf c rest with
    | some i => some (i + 1)
    | none => if x = c then some 0 else none

/-- Model of `pathlib.PurePath.suffix`: the part of the final component from its
last dot, provided that dot is neither the first nor the last character. -/
def pathSuffix (s : String) : String :=
  let name := fileName s
  match lastIdxOf '.' name.data with
  | some i => if 0 < i ∧ i < name.length - 1 then ⟨name.data.drop i⟩ else ""
  | none => ""

/-- Model of `pathlib.PurePath.stem`: final component without its suffix. -/
def pathStem (s : String) : String :=
  (fileName s).dropRight (pathSuffix s).length

/-- Model of `pathlib.PurePath.with_suffix`: replace the suffix of the final
component (append when there is none). -/
def withSuffix (s suf : String) : String :=
  dirPart s ++ pathStem s ++ suf

/-- Model of `pathlib.PurePath.parent`. -/
def parentPath (s : String) : String :=
  let d := dirPart s
  if d = "" then "."
  else if d = "/" then "/"
  else d.dropRight 1

/-- Python `needle in haystack` for strings: substring containment. -/
def strContains (hay needle : String) : Bool :=
  hasInfix needle.data hay.data

/-! ### Python dicts as insertion-ordered association lists -/

/-- Lookup in an association list (first occurrence; dict-built lists have
unique keys, so this is the dict lookup). -/
def dictLookup {V : Type} : List (String × V) → String → Option V
  | [], _ => none
  | p :: rest, k => if p.1 = k then some p.2 else dictLookup rest k

/-- Python dict assignment `m[k] = v`: overwrite in place when the key is
present (keeping its position), otherwise append at the end. -/
def dictInsert {V : Type} (m : List (String × V)) (k : String) (v : V) :
    List (String × V) :=
  if m.any (fun p => p.1 == k) then m.map (fun p => if p.1 == k then (k, v) else p)
  else m ++ [(k, v)]

/-- Insert a sequence of key-value pairs in order (the semantics of the items
of a `{** ...}` dict display being added one by one). -/
def dictUpdate {V : Type} (m : List (String × V)) (items : List (String × V)) :
    List (String × V) :=
  items.foldl (fun acc p => dictInsert acc p.1 p.2) m

/-- Value associated to the LAST occurrence of a key, if any (what survives
when a list of items is poured into a fresh dict). -/
def lastLookup {V : Type} : List (String × V) → String → Option V
  | [], _ => none
  | p :: rest, k =>
    match lastLookup rest k with
    | some v => some v
    | none => if p.1 = k then some p.2 else none

/-- The keys of an association list are pairwise distinct. -/
def keysNodup {V : Type} (m : List (String × V)) : Prop :=
  (m.map Prod.fst).Nodup

instance {V : Type} (m : List (String × V)) : Decidable (keysNodup m) :=
  inferInstanceAs (Decidable (m.map Prod.fst).Nodup)

/-! ### Filesystem abstraction -/

/-- Ambient filesystem state, as consulted by the Python code through
`Path.is_dir`, `Path.is_file`, `Path.exists` and `Path.iterdir`. -/
structure FS where
  isDir : String → Bool
  isFile : String → Bool
  pathExists : String → Bool
  listDir : String → List String

/-! ### GeneratedFile and manifest-entry normalization -/

/-- One entry of the rendered manifest (`class GeneratedFile(NamedTuple)`). -/
structure GeneratedFile where
  src : String
  tgt : String
  is_raw : Bool
  is_main : Bool
deriving DecidableEq

/-- Scalar YAML values that may appear in a manifest mapping. -/
inductive Yaml
  | s (v : String)
  | b (v : Bool)
deriving DecidableEq

/-- Python truthiness (`bool(...)`) of a scalar YAML value. -/
def yamlTruthy : Yaml → Bool
  | .s v => v ≠ ""
  | .b v => v

/-- A parsed manifest entry before normalization: either a bare string or a
mapping. -/
inductive ManifestEntry
  | str (s : String)
  | dict (m : List (String × Yaml))
deriving DecidableEq

/-- Python runtime errors that `GeneratedFile.from_yaml` can raise. -/
inductive PyError
  | typeError
  | keyError (k : String)
deriving DecidableEq

/-- Model of `GeneratedFile.from_yaml`.  For a bare string `entry`, the source
evaluates `"raw" in entry and entry["raw"]` (and likewise for `"main"`):
`in` is Python's substring test on strings, and indexing a `str` with a `str`
raises `TypeError`, which the model surfaces as an error value. -/
def GeneratedFile.from_yaml : ManifestEntry → Except PyError GeneratedFile
  | .str s =>
    if strContains s "raw" then .error .typeError
    else if strContains s "main" then .error .typeError
    else .ok ⟨s, s, false, false⟩
  | .dict m =>
    match dictLookup m "src" with
    | none => .error (.keyError "src")
    | some (.b _) => .error .typeError
    | some (.s src) =>
      let tgtV : Option (Option String) :=
        match dictLookup m "tgt" with
        | some (.s t) => some (some t)
        | some (.b _) => none
        | none => some none
      match tgtV with
      | none => .error .typeError
      | some tgtOpt =>
        let tgt := tgtOpt.getD src
        let is_raw := match dictLookup m "raw" with
          | some v => yamlTruthy v
          | none => false
        let is_main := match dictLookup m "main" with
          | some v => yamlTruthy v
          | none => false
        .ok ⟨src, tgt, is_raw, is_main⟩

/-! ### ProjectTemplate: validity invariant, find, find_all -/

/-- A resolved project template: its root directory and the library search
path the Jinja environment is built from. -/
structure ProjectTemplate where
  root_dir : String
  lib_path : List String
deriving DecidableEq

/-- The exception `ProjectTemplateNotFoundError`, carrying the requested
template name. -/
structure ProjectTemplateNotFoundError where
  template_name : String
deriving DecidableEq

/-- Model of `ProjectTemplate.is_template`: a directory that contains both
`default-conf.yaml` and `contents.yaml` as files. -/
def ProjectTemplate.is_template (fs : FS) (directory : String) : Bool :=
  fs.isDir directory
    && fs.isFile (joinPath directory "default-conf.yaml")
    && fs.isFile (joinPath directory "contents.yaml")

/-- Model of `ProjectTemplate.find`: walk the template path in order, return a
template rooted at the first `dir/name` satisfying the validity invariant,
bound to the whole library path; raise otherwise. -/
def ProjectTemplate.find (fs : FS) (name : String) :
    List String → List String → Except ProjectTemplateNotFoundError ProjectTemplate
  | [], _ => .error ⟨name⟩
  | dir :: rest, lib_path =>
    let path := joinPath dir name
    if ProjectTemplate.is_template fs path then .ok ⟨path, lib_path⟩
    else ProjectTemplate.find fs name rest lib_path

/-- Model of `ProjectTemplate.find_all`: for each path entry that is a
directory, yield the names of its children that satisfy the validity
invariant. -/
def ProjectTemplate.find_all (fs : FS) : List String → List String
  | [] => []
  | dir :: rest =>
    if fs.isDir dir then
      ((fs.listDir dir).filter
          (fun name => ProjectTemplate.is_template fs (joinPath dir name)))
        ++ ProjectTemplate.find_all fs rest
    else ProjectTemplate.find_all fs rest

/-! ### Configuration merge -/

/-- Model of `__config_with_defaults`: the Python dict display
`{**defaults, **config}` built by inserting the items of `defaults`, then the
items of `config`, into a fresh dict. -/
def config_with_defaults {V : Type} (defaults config : List (String × V)) :
    List (String × V) :=
  dictUpdate (dictUpdate [] defaults) config

/-! ### Generation -/

/-- The opaque collaborators of `ProjectTemplate.generate`: the template root,
the byte content of files under it (`shutil.copyfile` source), and the Jinja2
environment's rendering of a template reference against a context
(`env.get_template(src).stream(config)`). -/
structure GenEnv (V : Type) where
  root_dir : String
  readFile : String → String
  render : String → List (String × V) → String

/-- Content written for one manifest entry: a verbatim copy of
`root_dir/src` when `is_raw`, otherwise the rendering of the template `src`
against the configuration. -/
def entryContent {V : Type} (genv : GenEnv V) (config : List (String × V))
    (e : GeneratedFile) : String :=
  if e.is_raw then genv.readFile (joinPath genv.root_dir e.src)
  else genv.render e.src config

/-- The body of the loop in `ProjectTemplate.generate`: process the manifest
entries in order, writing each entry's content at `target_dir/tgt` into the
map of written files (directory creation has no effect on this map and is
elided). -/
def generateEntries {V : Type} (genv : GenEnv V) (config : List (String × V))
    (target_dir : String) :
    List GeneratedFile → List (String × String) → List (String × String)
  | [], fs => fs
  | e :: rest, fs =>
    let out_path := joinPath target_dir e.tgt
    let fs :=
      if e.is_raw then
        dictInsert fs out_path (genv.readFile (joinPath genv.root_dir e.src))
      else
        dictInsert fs out_path (genv.render e.src config)
    generateEntries genv config target_dir rest fs

/-- Model of `get_generated_files` up to its opaque collaborators: the
manifest function stands for rendering `contents.yaml` against the given
configuration and normalizing the parsed entries.  Note the method merges the
defaults into the configuration it receives. -/
def get_generated_files {V : Type} (defaults : List (String × V))
    (manifest : List (String × V) → List GeneratedFile)
    (config : List (String × V)) : List GeneratedFile :=
  manifest (config_with_defaults defaults config)

/-- Model of `ProjectTemplate.generate`: merge the defaults into the user
configuration, obtain the manifest through `get_generated_files` (which
merges again), then write every entry in manifest order. -/
def generate {V : Type} (genv : GenEnv V) (defaults user_config : List (String × V))
    (target_dir : String) (manifest : List (String × V) → List GeneratedFile)
    (fs : List (String × String)) : List (String × String) :=
  let config := config_with_defaults defaults user_config
  generateEntries genv config target_dir
    (get_generated_files defaults manifest config) fs

/-! ### Main file and compilation -/

/-- Model of `get_main_latex_file` applied to an already-rendered manifest:
the first entry marked main, if any. -/
def get_main_latex_file (entries : List GeneratedFile) : Option GeneratedFile :=
  entries.find? (fun e => e.is_main)

/-- Failures of `__compile_pdf`: the `ValueError` raised when the template
specifies no main file, and exhaustion of the fuel bounding the
suffix-searching loop (the Python loop would spin forever in that case). -/
inductive CompileError
  | noMainFile (template_name : String)
  | fuelExhausted
deriving DecidableEq

/-- Observable outcome of one `__compile_pdf` call: the files generated into
the build directory, whether the external compiler subprocess was invoked,
and the returned path (or the raised error). -/
structure CompileTrace where
  generatedFiles : List (String × String)
  ranLatexmk : Bool
  result : Except CompileError String

/-- The loop deriving a non-clobbered output name in `__compile_pdf`:
starting from the requested output path, while the current candidate exists
and overwriting is disabled, move to `parent/"stem (i).pdf"` with `i`
incremented. -/
def outputLoop (fs : FS) (output_path : String) (overwrite : Bool) :
    Nat → String → Nat → Option String
  | 0, _, _ => none
  | fuel + 1, output_file, i =>
    if fs.pathExists output_file && !overwrite then
      outputLoop fs output_path overwrite fuel
        (joinPath (parentPath output_path)
          (pathStem output_path ++ " (" ++ toString i ++ ").pdf"))
        (i + 1)
    else some output_file

/-- Model of `__compile_pdf`.  It first generates into the build directory,
then looks for the main file (raising when absent, before any subprocess),
then runs the external compiler — whose exit status it receives and ignores,
as `subprocess.run` is called without `check=True` — and finally locates the
artifact and relocates it according to `output_path` and `overwrite`. -/
def compile_pdf {V : Type} (template_name : String) (genv : GenEnv V)
    (config : List (String × V)) (entries : List GeneratedFile)
    (exit_code : Int) (output_path : Option String) (build_dir : String)
    (overwrite : Bool) (fs : FS) (fuel : Nat) : CompileTrace :=
  let genFiles := generateEntries genv config build_dir entries []
  match get_main_latex_file entries with
  | none => ⟨genFiles, false, .error (.noMainFile template_name)⟩
  | some main_file =>
    let _ := exit_code
    let generated_file := withSuffix (joinPath build_dir main_file.tgt) ".pdf"
    match output_path with
    | none => ⟨genFiles, true, .ok generated_file⟩
    | some op =>
      let op :=
        if fs.isDir op then withSuffix (joinPath op main_file.tgt) ".pdf" else op
      match outputLoop fs op overwrite fuel op 1 with
      | some output_file => ⟨genFiles, true, .ok output_file⟩
      | none => ⟨genFiles, true, .error .fuelExhausted⟩

/-! ### Default-config-file generation -/

/-- The loop of `generate_config`: while the candidate name exists, increment
the counter and retry with `config_file.with_suffix(config_file.suffix + ".N")`. -/
def generate_config_loop (fs : FS) (config_file : String) :
    Nat → Nat → String → Option String
  | 0, _, _ => none
  | fuel + 1, suffix, new_file =>
    if fs.pathExists new_file then
      generate_config_loop fs config_file fuel (suffix + 1)
        (withSuffix config_file
          (pathSuffix config_file ++ "." ++ toString (suffix + 1)))
    else some new_file

/-- Model of `generate_config`: the name the default configuration is copied
to (the copy itself is an opaque filesystem effect). -/
def generate_config (fs : FS) (output_file : String) (fuel : Nat) :
    Option String :=
  generate_config_loop fs output_file fuel 0 output_file

/-! ### Search paths -/

/-- The module constant `DEFAULT_PATH`, with `Path.home()` as a parameter. -/
def DEFAULT_PATH (home : String) : List String :=
  ["./",
   home ++ "/.local/share/latex-templates/",
   "/usr/local/share/latex-templates/",
   "/usr/share/latex-templates/"]

/-- Model of `search_paths`.  The environment variable `LATEX_TEMPLATE_PATH`
is `none` when unset; a set-but-empty value is falsy in Python and also falls
back to `DEFAULT_PATH`.  The bundled package resource directories are
parameters.  No filesystem is consulted. -/
def search_paths (env : Option String) (home : String)
    (bundled_templates bundled_libraries : String) :
    List String × List String :=
  let path :=
    match env with
    | some s => if s ≠ "" then strSplit s ':' else DEFAULT_PATH home
    | none => DEFAULT_PATH home
  let template_path := path.map (fun p => joinPath p "templates")
  let lib_path := path.map (fun p => joinPath p "libraries")
  (template_path ++ [bundled_templates], lib_path ++ [bundled_libraries])

/-! ### Concrete instances used in closed evaluations -/

/-- A concrete generation environment over `Nat`-valued configurations: the
renderer echoes the template reference, raw reads yield `"RAW"`. -/
def genvNat : GenEnv Nat := ⟨"tpl", fun _ => "RAW", fun s _ => s⟩

/-- A filesystem with no entries at all. -/
def fsEmpty : FS := ⟨fun _ => false, fun _ => false, fun _ => false, fun _ => []⟩

/-- A filesystem where exactly `config.yaml`, `config.yaml.1` and
`report.pdf` exist (and nothing is a directory). -/
def fsClutter : FS :=
  ⟨fun _ => false, fun _ => false,
   fun p => decide (p = "config.yaml" ∨ p = "config.yaml.1" ∨ p = "report.pdf"),
   fun _ => []⟩

/-- A manifest entry marked main. -/
def mainEntry : GeneratedFile := ⟨"main.tex", "main.tex", false, true⟩

/-- A raw manifest entry with a distinct target path. -/
def logoEntry : GeneratedFile := ⟨"logo.png", "img/logo.png", true, false⟩

/-- A plain manifest entry, neither raw nor main. -/
def notesEntry : GeneratedFile := ⟨"notes.tex", "notes.tex", false, false⟩

/-! ### Lemmas about the dict model -/

theorem dictLookup_append {V : Type} (m₁ m₂ : List (String × V)) (k : String) :
    dictLookup (m₁ ++ m₂) k =
      match dictLookup m₁ k with
      | some v => some v
      | none => dictLookup m₂ k := by
  induction m₁ with
  | nil => rfl
  | cons p rest ih =>
    simp only [List.cons_append, dictLookup]
    by_cases hp : p.1 = k
    · simp [hp]
    · simp [hp, ih]

theorem dictLookup_eq_none_iff {V : Type} (m : List (String × V)) (k : String) :
    dictLookup m k = none ↔ k ∉ m.map Prod.fst := by
  induction m with
  | nil => simp [dictLookup]
  | cons p rest ih =>
    simp only [dictLookup, List.map_cons, List.mem_cons]
    by_cases hp : p.1 = k
    · simp [hp]
    · simp only [hp, if_false, ih]
      constructor
      · intro h hc
        rcases hc with hc | hc
        · exact hp hc.symm
        · exact h hc
      · intro h hc
        exact h (Or.inr hc)

theorem lastLookup_eq_none_iff {V : Type} (m : List (String × V)) (k : String) :
    lastLookup m k = none ↔ k ∉ m.map Prod.fst := by
  induction m with
  | nil => simp [lastLookup]
  | cons p rest ih =>
    simp only [lastLookup, List.map_cons, List.mem_cons]
    cases h : lastLookup rest k with
    | some v =>
      constructor
      · intro hc; exact Option.noConfusion hc
      · intro hc
        have h0 : lastLookup rest k = none := ih.mpr (fun hm => hc (Or.inr hm))
        rw [h0] at h
        exact Option.noConfusion h
    | none =>
      by_cases hp : p.1 = k
      · simp [hp]
      · simp only [hp, if_false]
        constructor
        · intro _ hc
          rcases hc with hc | hc
          · exact hp hc.symm
          · exact (ih.mp h) hc
        · intro _; trivial

theorem any_key_eq_false_iff {V : Type} (m : List (String × V)) (k : String) :
    m.any (fun p => p.1 == k) = false ↔ dictLookup m k = none := by
  rw [dictLookup_eq_none_iff]
  constructor
  · intro h hc
    rcases List.mem_map.mp hc with ⟨p, hpm, hpk⟩
    have hT : (m.any fun p => p.1 == k) = true :=
      List.any_eq_true.mpr ⟨p, hpm, by simpa using hpk⟩
    rw [hT] at h; cases h
  · intro h
    by_contra hc
    have : m.any (fun p => p.1 == k) = true := by
      cases hb : m.any (fun p => p.1 == k) with
      | true => rfl
      | false => exact absurd hb hc
    rcases List.any_eq_true.mp this with ⟨p, hpm, hpk⟩
    exact h (List.mem_map.mpr ⟨p, hpm, by simpa using hpk⟩)

theorem dictLookup_map_ne {V : Type} (m : List (String × V)) (k k' : String) (v : V)
    (h : k' ≠ k) :
    dictLookup (m.map (fun p => if p.1 == k then (k, v) else p)) k' =
      dictLookup m k' := by
  induction m with
  | nil => rfl
  | cons p rest ih =>
    by_cases hp : p.1 = k
    · rw [List.map_cons, if_pos (by simpa using hp)]
      simp only [dictLookup]
      rw [if_neg (show ¬((k, v).1 = k') from fun hc => h hc.symm),
        if_neg (show ¬(p.1 = k') from fun hc => h (hp.symm.trans hc).symm)]
      exact ih
    · rw [List.map_cons, if_neg (by simpa using hp)]
      simp only [dictLookup]
      by_cases hk : p.1 = k'
      · rw [if_pos hk, if_pos hk]
      · rw [if_neg hk, if_neg hk]
        exact ih

theorem dictLookup_map_replace_self {V : Type} (m : List (String × V))
    (k : String) (v : V) (h : m.any (fun p => p.1 == k) = true) :
    dictLookup (m.map (fun p => if p.1 == k then (k, v) else p)) k = some v := by
  induction m with
  | nil => cases h
  | cons p rest ih =>
    by_cases hp : p.1 = k
    · rw [List.map_cons, if_pos (by simpa using hp)]
      simp [dictLookup]
    · rw [List.map_cons, if_neg (by simpa using hp)]
      simp only [dictLookup]
      rw [if_neg hp]
      apply ih
      have hb : (p.1 == k) = false := by simpa using hp
      simpa [List.any_cons, hb] using h

theorem dictLookup_dictInsert {V : Type} (m : List (String × V)) (k k' : String)
    (v : V) :
    dictLookup (dictInsert m k v) k' =
      if k' = k then some v else dictLookup m k' := by
  unfold dictInsert
  by_cases hany : m.any (fun p => p.1 == k) = true
  · simp only [hany, if_true]
    by_cases hk : k' = k
    · rw [if_pos hk, hk]
      exact dictLookup_map_replace_self m k v hany
    · rw [if_neg hk]
      exact dictLookup_map_ne m k k' v hk
  · have hf : m.any (fun p => p.1 == k) = false := by
      cases hb : m.any (fun p => p.1 == k) with
      | false => rfl
      | true => exact absurd hb hany
    have hnone : dictLookup m k = none := (any_key_eq_false_iff m k).mp hf
    simp only [hf, Bool.false_eq_true, if_false]
    rw [dictLookup_append]
    by_cases hk : k' = k
    · subst hk
      rw [hnone, if_pos rfl]
      simp [dictLookup]
    · cases h : dictLookup m k' with
      | some v' =>
        rw [if_neg hk]
      | none =>
        rw [if_neg hk]
        show dictLookup [(k, v)] k' = none
        simp only [dictLookup]
        rw [if_neg (fun hc => hk hc.symm)]

theorem dictUpdate_cons {V : Type} (A : List (String × V)) (p : String × V)
    (rest : List (String × V)) :
    dictUpdate A (p :: rest) = dictUpdate (dictInsert A p.1 p.2) rest := rfl

theorem dictLookup_dictUpdate {V : Type} (A items : List (String × V))
    (k : String) :
    dictLookup (dictUpdate A items) k =
      match lastLookup items k with
      | some v => some v
      | none => dictLookup A k := by
  induction items generalizing A with
  | nil => rfl
  | cons p rest ih =>
    rw [dictUpdate_cons, ih]
    simp only [lastLookup]
    cases h : lastLookup rest k with
    | some v => simp
    | none =>
      simp only []
      rw [dictLookup_dictInsert]
      by_cases hk : p.1 = k
      · simp [hk]
      · have : ¬ (k = p.1) := fun hc => hk hc.symm
        simp [hk, this]

theorem keys_map_replace {V : Type} (m : List (String × V)) (k : String) (v : V) :
    (m.map (fun p => if p.1 == k then (k, v) else p)).map Prod.fst =
      m.map Prod.fst := by
  induction m with
  | nil => rfl
  | cons p rest ih =>
    simp only [List.map_cons]
    by_cases hp : p.1 = k
    · rw [if_pos (by simpa using hp), ih, hp]
    · rw [if_neg (by simpa using hp), ih]

theorem keysNodup_dictInsert {V : Type} (m : List (String × V)) (k : String)
    (v : V) (h : keysNodup m) : keysNodup (dictInsert m k v) := by
  unfold dictInsert keysNodup at *
  by_cases hany : m.any (fun p => p.1 == k) = true
  · rw [if_pos hany, keys_map_replace]
    exact h
  · have hf : m.any (fun p => p.1 == k) = false := by
      cases hb : m.any (fun p => p.1 == k) with
      | false => rfl
      | true => exact absurd hb hany
    have hk : k ∉ m.map Prod.fst := by
      rw [← dictLookup_eq_none_iff]
      exact (any_key_eq_false_iff m k).mp hf
    rw [if_neg hany, List.map_append, List.nodup_append]
    refine ⟨h, by simp, ?_⟩
    intro a ha hb
    have hak : a = k := by simpa using hb
    subst hak
    exact hk ha

theorem keysNodup_dictUpdate {V : Type} (A items : List (String × V))
    (h : keysNodup A) : keysNodup (dictUpdate A items) := by
  induction items generalizing A with
  | nil => exact h
  | cons p rest ih =>
    rw [dictUpdate_cons]
    exact ih _ (keysNodup_dictInsert A p.1 p.2 h)

theorem lastLookup_eq_dictLookup {V : Type} (m : List (String × V)) (k : String)
    (h : keysNodup m) : lastLookup m k = dictLookup m k := by
  induction m with
  | nil => rfl
  | cons p rest ih =>
    have hnd : keysNodup rest := by
      simpa [keysNodup] using (List.nodup_cons.mp h).2
    have hmem : p.1 ∉ rest.map Prod.fst := by
      simpa [keysNodup] using (List.nodup_cons.mp h).1
    simp only [lastLookup, dictLookup]
    by_cases hk : p.1 = k
    · subst hk
      have : lastLookup rest p.1 = none := (lastLookup_eq_none_iff rest p.1).mpr hmem
      simp [this]
    · rw [ih hnd]
      cases hr : dictLookup rest k with
      | some v => simp [hk]
      | none => simp [hk]

/-! ### Path and generation helper lemmas -/

theorem append_left_cancel_str (a b c : String) (h : a ++ b = a ++ c) : b = c := by
  have hd := congrArg String.data h
  simp only [String.data_append] at hd
  exact String.ext (List.append_cancel_left hd)

theorem joinPath_right_inj (t a b : String) (h : joinPath t a = joinPath t b) :
    a = b := by
  unfold joinPath at h
  by_cases h1 : t = "" ∨ t = "." ∨ t = "./"
  · rwa [if_pos h1, if_pos h1] at h
  · rw [if_neg h1, if_neg h1] at h
    by_cases h2 : strEndsWith t "/"
    · rw [if_pos h2, if_pos h2] at h
      exact append_left_cancel_str t a b h
    · rw [if_neg h2, if_neg h2] at h
      exact append_left_cancel_str (t ++ "/") a b h

theorem dictInsert_eq_append {V : Type} (m : List (String × V)) (k : String)
    (v : V) (h : dictLookup m k = none) : dictInsert m k v = m ++ [(k, v)] := by
  unfold dictInsert
  have hf : m.any (fun p => p.1 == k) = false := (any_key_eq_false_iff m k).mpr h
  rw [if_neg (by rw [hf]; exact Bool.false_ne_true)]

theorem generateEntries_cons_eq {V : Type} (genv : GenEnv V)
    (config : List (String × V)) (t : String) (e : GeneratedFile)
    (rest : List GeneratedFile) (acc : List (String × String)) :
    generateEntries genv config t (e :: rest) acc =
      generateEntries genv config t rest
        (dictInsert acc (joinPath t e.tgt) (entryContent genv config e)) := by
  cases hr : e.is_raw <;> simp [generateEntries, entryContent, hr]

theorem generateEntries_eq_append {V : Type} (genv : GenEnv V)
    (config : List (String × V)) (t : String) (entries : List GeneratedFile)
    (acc : List (String × String))
    (hnd : (entries.map (fun e => joinPath t e.tgt)).Nodup)
    (hdisj : ∀ e ∈ entries, dictLookup acc (joinPath t e.tgt) = none) :
    generateEntries genv config t entries acc =
      acc ++ entries.map (fun e => (joinPath t e.tgt, entryContent genv config e)) := by
  induction entries generalizing acc with
  | nil => simp [generateEntries]
  | cons e rest ih =>
    rw [List.map_cons, List.nodup_cons] at hnd
    have hout : dictLookup acc (joinPath t e.tgt) = none :=
      hdisj e (List.mem_cons_self e rest)
    rw [generateEntries_cons_eq, dictInsert_eq_append acc _ _ hout]
    have hdisj2 : ∀ e' ∈ rest,
        dictLookup (acc ++ [(joinPath t e.tgt, entryContent genv config e)])
          (joinPath t e'.tgt) = none := by
      intro e' he'
      rw [dictLookup_append, hdisj e' (List.mem_cons_of_mem e he')]
      show dictLookup [(joinPath t e.tgt, entryContent genv config e)]
          (joinPath t e'.tgt) = none
      simp only [dictLookup]
      rw [if_neg]
      intro hc
      exact hnd.1 (by
        rw [show joinPath t e.tgt = joinPath t e'.tgt from hc]
        exact List.mem_map_of_mem (fun x => joinPath t x.tgt) he')
    rw [ih _ hnd.2 hdisj2, List.append_assoc]
    rfl

/-! ### Claim theorems -/

/-- C3: `ProjectTemplate.find` walks the template path in order and returns a
template rooted at the first candidate `dir/name` satisfying the validity
invariant, with the entire library path bound as its library search path; if
no candidate matches it raises `ProjectTemplateNotFoundError` carrying the
requested name. -/
theorem find_returns_first_valid (fs : FS) (name : String)
    (template_path lib_path : List String) :
    ProjectTemplate.find fs name template_path lib_path =
      match template_path.find?
          (fun dir => ProjectTemplate.is_template fs (joinPath dir name)) with
      | some dir => .ok ⟨joinPath dir name, lib_path⟩
      | none => .error ⟨name⟩ := by
  induction template_path with
  | nil => rfl
  | cons dir rest ih =>
    cases h : ProjectTemplate.is_template fs (joinPath dir name) with
    | true => simp [ProjectTemplate.find, List.find?, h]
    | false => simp [ProjectTemplate.find, List.find?, h, ih]

/-- C7: `ProjectTemplate.find_all` yields, in path-traversal order, the name
of every valid template subdirectory of every path entry that is a directory
(skipping entries that are not), once per occurrence and without
deduplication; in particular it yields exactly as many names as there are
valid subdirectories. -/
theorem find_all_enumerates_every_occurrence (fs : FS)
    (template_path : List String) :
    ProjectTemplate.find_all fs template_path =
      (template_path.map (fun dir =>
        if fs.isDir dir then
          (fs.listDir dir).filter
            (fun n => ProjectTemplate.is_template fs (joinPath dir n))
        else [])).flatten
    ∧ (ProjectTemplate.find_all fs template_path).length =
        (template_path.map (fun dir =>
          if fs.isDir dir then
            ((fs.listDir dir).filter
              (fun n => ProjectTemplate.is_template fs (joinPath dir n))).length
          else 0)).sum := by
  constructor
  · induction template_path with
    | nil => rfl
    | cons dir rest ih =>
      cases h : fs.isDir dir with
      | true => simp [ProjectTemplate.find_all, h, ih]
      | false => simp [ProjectTemplate.find_all, h, ih]
  · induction template_path with
    | nil => rfl
    | cons dir rest ih =>
      cases h : fs.isDir dir with
      | true => simp [ProjectTemplate.find_all, h, ih]
      | false => simp [ProjectTemplate.find_all, h, ih]

/-- C4: the configuration merge `{**defaults, **config}` is shallow and pure:
every key of the override maps to exactly the override's value (no recursive
combination — the value type is opaque and carried over unchanged), every key
only in the defaults maps to the default value, and the merged mapping has a
key exactly when one of the operands does. -/
theorem config_merge_shallow {V : Type} (d u : List (String × V)) (k : String)
    (hd : keysNodup d) (hu : keysNodup u) :
    dictLookup (config_with_defaults d u) k =
      (match dictLookup u k with
       | some v => some v
       | none => dictLookup d k)
    ∧ (dictLookup (config_with_defaults d u) k).isSome =
        ((dictLookup d k).isSome || (dictLookup u k).isSome) := by
  have hmain : dictLookup (config_with_defaults d u) k =
      (match dictLookup u k with
       | some v => some v
       | none => dictLookup d k) := by
    unfold config_with_defaults
    rw [dictLookup_dictUpdate, lastLookup_eq_dictLookup u k hu,
      dictLookup_dictUpdate, lastLookup_eq_dictLookup d k hd]
    cases dictLookup u k with
    | some v => rfl
    | none =>
      cases dictLookup d k with
      | some v => rfl
      | none => rfl
  refine ⟨hmain, ?_⟩
  rw [hmain]
  cases dictLookup u k with
  | some v => simp
  | none =>
    cases dictLookup d k with
    | some v => simp
    | none => simp

/-- C10: merging the defaults under an already default-merged configuration
changes nothing: `{**d, **{**d, **c}}` agrees with `{**d, **c}` at every key
(Python dict equality); hence `generate`, which hands its once-merged
configuration to `get_generated_files` (which merges again), renders the
manifest and the files against the same configuration. -/
theorem config_with_defaults_idempotent {V : Type} (d c : List (String × V))
    (k : String) :
    dictLookup (config_with_defaults d (config_with_defaults d c)) k =
      dictLookup (config_with_defaults d c) k := by
  have hM : keysNodup (config_with_defaults d c) :=
    keysNodup_dictUpdate _ _ (keysNodup_dictUpdate _ _ (by simp [keysNodup]))
  have h1 : dictLookup (config_with_defaults d (config_with_defaults d c)) k =
      match lastLookup (config_with_defaults d c) k with
      | some v => some v
      | none => dictLookup (dictUpdate ([] : List (String × V)) d) k :=
    dictLookup_dictUpdate _ _ k
  rw [h1, lastLookup_eq_dictLookup _ k hM]
  cases h : dictLookup (config_with_defaults d c) k with
  | some v => rfl
  | none =>
    have h2 : dictLookup (config_with_defaults d c) k =
        match lastLookup c k with
        | some v => some v
        | none => dictLookup (dictUpdate ([] : List (String × V)) d) k :=
      dictLookup_dictUpdate _ _ k
    rw [h2] at h
    cases hc : lastLookup c k with
    | some v => rw [hc] at h; exact absurd h (by simp)
    | none => rw [hc] at h; exact h

theorem generate_config_loop_succ (fs : FS) (cf : String) (f s : Nat)
    (nf : String) :
    generate_config_loop fs cf (f + 1) s nf =
      if fs.pathExists nf then
        generate_config_loop fs cf f (s + 1)
          (withSuffix cf (pathSuffix cf ++ "." ++ toString (s + 1)))
      else some nf := rfl

theorem outputLoop_succ (fs : FS) (op : String) (ow : Bool) (f : Nat)
    (cur : String) (i : Nat) :
    outputLoop fs op ow (f + 1) cur i =
      if fs.pathExists cur && !ow then
        outputLoop fs op ow f
          (joinPath (parentPath op)
            (pathStem op ++ " (" ++ toString i ++ ").pdf"))
          (i + 1)
      else some cur := rfl

/-- C1: the claim that every bare-string manifest entry `s` normalizes to
`{src: s, tgt: s, isRaw: false, isMain: false}` fails on the code: for a
string containing `"main"` (or `"raw"`) as a substring — including the
standard `"main.tex"` — the source's `entry["main"]` (resp. `entry["raw"]`)
indexes a `str` with a `str` and raises `TypeError`; strings without those
substrings normalize exactly as claimed. -/
theorem from_yaml_string_entry_eval :
    GeneratedFile.from_yaml (.str "main.tex") = .error .typeError
    ∧ GeneratedFile.from_yaml (.str "draw.tex") = .error .typeError
    ∧ GeneratedFile.from_yaml (.str "notes.tex") =
        .ok ⟨"notes.tex", "notes.tex", false, false⟩ :=
  ⟨rfl, rfl, rfl⟩

/-- C2: the code does not propagate a compiler failure: whatever exit status
the external compiler subprocess returns — failing ones included —
`__compile_pdf` still runs it, then proceeds to locate the output artifact
and returns it; the outcome is independent of the exit code. -/
theorem compile_pdf_ignores_exit_status (exit_code : Int) :
    (compile_pdf "report" genvNat [] [mainEntry] exit_code none "build" false
      fsEmpty 1).ranLatexmk = true
    ∧ (compile_pdf "report" genvNat [] [mainEntry] exit_code none "build" false
        fsEmpty 1).result = .ok "build/main.pdf" :=
  ⟨rfl, rfl⟩

/-- C5: when no entry of the rendered manifest is marked main,
`get_main_latex_file` returns `none` and `__compile_pdf` fails with the
no-main-file error after generating into the build directory but without
ever invoking the external compiler subprocess. -/
theorem compile_pdf_no_main_file {V : Type} (genv : GenEnv V)
    (template_name : String) (config : List (String × V))
    (entries : List GeneratedFile) (exit_code : Int)
    (output_path : Option String) (build_dir : String) (overwrite : Bool)
    (fs : FS) (fuel : Nat) (h : ∀ e ∈ entries, e.is_main = false) :
    get_main_latex_file entries = none
    ∧ compile_pdf template_name genv config entries exit_code output_path
        build_dir overwrite fs fuel =
      ⟨generateEntries genv config build_dir entries [], false,
        .error (.noMainFile template_name)⟩ := by
  have hnone : get_main_latex_file entries = none := by
    unfold get_main_latex_file
    rw [List.find?_eq_none]
    intro e he
    simp [h e he]
  refine ⟨hnone, ?_⟩
  unfold compile_pdf
  rw [hnone]

/-- C6: `generate` processes the manifest entries in order and is complete:
for independent entries (pairwise-distinct target paths) written into an
empty target, it produces exactly one file per entry, in manifest order, at
`target_dir/tgt`, raw entries carrying the byte content of
`template.root/src` and the others the text rendered from `src` against the
merged configuration; and a file already present at a target path is
overwritten. -/
theorem generate_order_preserving_and_complete {V : Type} (genv : GenEnv V)
    (d c : List (String × V)) (target_dir : String)
    (entries : List GeneratedFile) (fs : List (String × String))
    (e : GeneratedFile) (hnd : (entries.map GeneratedFile.tgt).Nodup) :
    generate genv d c target_dir (fun _ => entries) [] =
      entries.map (fun x => (joinPath target_dir x.tgt,
        entryContent genv (config_with_defaults d c) x))
    ∧ (generate genv d c target_dir (fun _ => entries) []).length =
        entries.length
    ∧ dictLookup (generate genv d c target_dir (fun _ => [e]) fs)
        (joinPath target_dir e.tgt) =
      some (entryContent genv (config_with_defaults d c) e) := by
  have hmap : (entries.map (fun x => joinPath target_dir x.tgt)).Nodup := by
    have h2 : ((entries.map GeneratedFile.tgt).map
        (fun s => joinPath target_dir s)).Nodup :=
      hnd.map (fun a b hab => joinPath_right_inj target_dir a b hab)
    rw [List.map_map] at h2
    exact h2
  have hmain : generate genv d c target_dir (fun _ => entries) [] =
      entries.map (fun x => (joinPath target_dir x.tgt,
        entryContent genv (config_with_defaults d c) x)) := by
    show generateEntries genv (config_with_defaults d c) target_dir entries [] = _
    rw [generateEntries_eq_append genv (config_with_defaults d c) target_dir
      entries [] hmap (fun e' _ => rfl)]
    rw [List.nil_append]
  refine ⟨hmain, ?_, ?_⟩
  · rw [hmain, List.length_map]
  · show dictLookup
        (generateEntries genv (config_with_defaults d c) target_dir [e] fs)
        (joinPath target_dir e.tgt) = _
    rw [generateEntries_cons_eq]
    show dictLookup (dictInsert fs (joinPath target_dir e.tgt)
        (entryContent genv (config_with_defaults d c) e))
        (joinPath target_dir e.tgt) = _
    rw [dictLookup_dictInsert, if_pos rfl]

/-- C8: non-clobbering output naming: with `config.yaml` and `config.yaml.1`
present and `config.yaml.2` free, `generate_config` writes to
`config.yaml.2`; and with `report.pdf` present, `report (1).pdf` free and
overwriting disabled, `__compile_pdf` relocates the artifact to
`report (1).pdf`, the suffix `" (N)"` being incremented until a free name is
found. -/
theorem non_clobbering_output_names {V : Type} (fs : FS) (genv : GenEnv V)
    (template_name : String) (config : List (String × V))
    (entries : List GeneratedFile) (m : GeneratedFile) (exit_code : Int)
    (fuel : Nat)
    (h1 : fs.pathExists "config.yaml" = true)
    (h2 : fs.pathExists "config.yaml.1" = true)
    (h3 : fs.pathExists "config.yaml.2" = false)
    (h4 : fs.isDir "report.pdf" = false)
    (h5 : fs.pathExists "report.pdf" = true)
    (h6 : fs.pathExists "report (1).pdf" = false)
    (hm : get_main_latex_file entries = some m)
    (hf : 3 ≤ fuel) :
    generate_config fs "config.yaml" fuel = some "config.yaml.2"
    ∧ (compile_pdf template_name genv config entries exit_code
        (some "report.pdf") "build" false fs fuel).result =
      .ok "report (1).pdf" := by
  obtain ⟨k, rfl⟩ : ∃ k, fuel = k + 3 := ⟨fuel - 3, by omega⟩
  constructor
  · show generate_config_loop fs "config.yaml" (k + 2 + 1) 0 "config.yaml" = _
    rw [generate_config_loop_succ, if_pos h1]
    show generate_config_loop fs "config.yaml" (k + 1 + 1) 1 "config.yaml.1" = _
    rw [generate_config_loop_succ, if_pos h2]
    show generate_config_loop fs "config.yaml" (k + 1) 2 "config.yaml.2" = _
    cases k with
    | zero =>
      rw [generate_config_loop_succ,
        if_neg (by rw [h3]; exact Bool.false_ne_true)]
    | succ k' =>
      rw [generate_config_loop_succ,
        if_neg (by rw [h3]; exact Bool.false_ne_true)]
  · have hloop : outputLoop fs "report.pdf" false (k + 3) "report.pdf" 1 =
        some "report (1).pdf" := by
      show outputLoop fs "report.pdf" false (k + 2 + 1) "report.pdf" 1 = _
      rw [outputLoop_succ, h5,
        if_pos (show (true && !false) = true from rfl)]
      show outputLoop fs "report.pdf" false (k + 1 + 1) "report (1).pdf" 2 = _
      rw [outputLoop_succ, h6,
        if_neg (show ¬((false && !false) = true) from by decide)]
    simp only [compile_pdf, hm, h4, Bool.false_eq_true, if_false]
    rw [hloop]

/-- C9: `search_paths` derives the base list from the environment variable
split on `":"` when it is set and non-empty, else from the fixed default
list; it returns each base mapped to `base/templates` (resp.
`base/libraries`) in order, with the bundled directory appended last; the
model consults no filesystem, reflecting that no existence check happens at
this stage. -/
theorem search_paths_contract (s home bt bl : String) (hs : s ≠ "") :
    (search_paths (some s) home bt bl).1 =
      (strSplit s ':').map (fun p => joinPath p "templates") ++ [bt]
    ∧ (search_paths (some s) home bt bl).2 =
      (strSplit s ':').map (fun p => joinPath p "libraries") ++ [bl]
    ∧ (search_paths none home bt bl).1 =
      (DEFAULT_PATH home).map (fun p => joinPath p "templates") ++ [bt]
    ∧ (search_paths none home bt bl).2 =
      (DEFAULT_PATH home).map (fun p => joinPath p "libraries") ++ [bl]
    ∧ (search_paths (some "") home bt bl).1 =
      (DEFAULT_PATH home).map (fun p => joinPath p "templates") ++ [bt]
    ∧ (search_paths (some "") home bt bl).2 =
      (DEFAULT_PATH home).map (fun p => joinPath p "libraries") ++ [bl] := by
  refine ⟨?_, ?_, rfl, rfl, rfl, rfl⟩ <;> simp [search_paths, hs]

/-! ### Witnesses -/

theorem config_merge_shallow_witness :
    keysNodup [("a", [("x", 1)]), ("b", [("x", 1)])]
    ∧ dictLookup (config_with_defaults [("a", [("x", 1)]), ("b", [("x", 1)])]
        [("b", [("y", 2)])]) "b" = some [("y", 2)] := by
  refine ⟨by decide, ?_⟩
  have h := (config_merge_shallow [("a", [("x", 1)]), ("b", [("x", 1)])]
    [("b", [("y", 2)])] "b" (by decide) (by decide)).1
  rw [h]
  rfl

theorem compile_pdf_no_main_file_witness :
    (∀ e ∈ [notesEntry], e.is_main = false)
    ∧ get_main_latex_file [notesEntry] = none :=
  ⟨by decide,
    (compile_pdf_no_main_file genvNat "report" [] [notesEntry] 0 none "build"
      false fsEmpty 0 (by decide)).1⟩

theorem generate_order_preserving_and_complete_witness :
    ([mainEntry, logoEntry].map GeneratedFile.tgt).Nodup
    ∧ generate genvNat [("title", 1)] [] "out"
        (fun _ => [mainEntry, logoEntry]) [] =
      [("out/main.tex", "main.tex"), ("out/img/logo.png", "RAW")] := by
  refine ⟨by decide, ?_⟩
  rw [(generate_order_preserving_and_complete genvNat [("title", 1)] [] "out"
    [mainEntry, logoEntry] [] mainEntry (by decide)).1]
  rfl

theorem non_clobbering_output_names_witness :
    fsClutter.pathExists "config.yaml" = true
    ∧ generate_config fsClutter "config.yaml" 3 = some "config.yaml.2"
    ∧ (compile_pdf "report" genvNat [] [mainEntry] 0 (some "report.pdf")
        "build" false fsClutter 3).result = .ok "report (1).pdf" := by
  have h := non_clobbering_output_names fsClutter genvNat "report" []
    [mainEntry] mainEntry 0 3 (by decide) (by decide) (by decide) (by decide)
    (by decide) (by decide) rfl (by decide)
  exact ⟨by decide, h.1, h.2⟩

theorem search_paths_contract_witness :
    ("/opt/lt:/srv/lt" : String) ≠ ""
    ∧ (search_paths (some "/opt/lt:/srv/lt") "/home/u" "/pkg/t" "/pkg/l").1 =
      (strSplit "/opt/lt:/srv/lt" ':').map (fun p => joinPath p "templates")
        ++ ["/pkg/t"] :=
  ⟨by decide,
    (search_paths_contract "/opt/lt:/srv/lt" "/home/u" "/pkg/t" "/pkg/l"
      (by decide)).1⟩

end LatexTemplates
